import Mathlib

/-!
Verification of the spell-extraction pipeline of the Spell-Card-Maker
repository (`spell_data/srd_extractor.py` and `spell.py`).

The Python source is shallowly embedded: text is modelled as `List Char`
(a `Str`), each compiled regular expression of the extractor is embedded
as an explicit character-level scanning function with the exact
backtracking behaviour of the original pattern, and every helper of the
Python standard library that the extractor relies on (`str.title`,
`str.strip`, `str.replace`, `str.split`, `', '.join`, `str`/`int`
conversion, substring tests) is given an explicit executable definition.
Fallible steps (the `RuntimeError`s raised by `populate_spell_metadata`)
are modelled with `Except`; a skipped entity (`continue` in
`create_spell_dict`) is modelled with `none`.
-/

deriving instance DecidableEq for Except

namespace SCM

/-- Text, as the Python code sees it: a sequence of characters. -/
abbrev Str := List Char

/-- `p` is a leading prefix of `s` (used to embed literal-text matching of
the compiled regular expressions). -/
def pyStartsWith : Str → Str → Bool
  | [], _ => true
  | _ :: _, [] => false
  | p :: ps, s :: ss => p = s && pyStartsWith ps ss

/-- Python's `pat in s` substring test. -/
def isSubstr (pat : Str) : Str → Bool
  | [] => pyStartsWith pat []
  | c :: rest => pyStartsWith pat (c :: rest) || isSubstr pat rest

/-- Consume the literal `lit` at the head of `s`, returning the remainder. -/
def dropLit (lit : Str) (s : Str) : Option Str :=
  if pyStartsWith lit s then some (s.drop lit.length) else none

/-- Consume an optional single character (a `c?` regex atom). -/
def dropOpt (c : Char) : Str → Str
  | [] => []
  | x :: rest => if x = c then rest else x :: rest

/-- A `\w` word character of the regex patterns (ASCII view). -/
def wordChar (c : Char) : Bool := c.isAlphanum || c = '_'

/-- Worker for `pyTitle`; the flag records whether the previous character
was a letter (Python: a cased character). -/
def pyTitleGo : Bool → Str → Str
  | _, [] => []
  | prev, c :: rest =>
    if c.isAlpha then
      (if prev then c.toLower else c.toUpper) :: pyTitleGo true rest
    else
      c :: pyTitleGo false rest

/-- Python's `str.title()`: first letter of each run of letters is
uppercased, each following letter lowercased. -/
def pyTitle (s : Str) : Str := pyTitleGo false s

/-- Python whitespace, as stripped by `str.strip()`. -/
def isPySpace (c : Char) : Bool :=
  c = ' ' || c = '\t' || c = '\n' || c = '\r' || c = '\x0b' || c = '\x0c'

/-- Python's `str.strip()`. -/
def pyStrip (s : Str) : Str :=
  ((s.dropWhile isPySpace).reverse.dropWhile isPySpace).reverse

/-- Fuelled worker for `pyReplace` (fuel bounds the scan length; the
initial fuel `s.length` is always sufficient because every step consumes
at least one character). -/
def pyReplaceGo (pat rep : Str) : Nat → Str → Str
  | _, [] => []
  | 0, s => s
  | fuel + 1, c :: rest =>
    if pat ≠ [] ∧ pyStartsWith pat (c :: rest) = true then
      rep ++ pyReplaceGo pat rep fuel ((c :: rest).drop pat.length)
    else
      c :: pyReplaceGo pat rep fuel rest

/-- Python's `s.replace(pat, rep)` for a non-empty `pat`: replace
non-overlapping occurrences left to right. -/
def pyReplace (pat rep s : Str) : Str := pyReplaceGo pat rep s.length s

/-- Fuelled worker for `natToStr`: emits the decimal digits of `n`
(most significant first); fuel `n + 1` always suffices since `n / 10`
strictly decreases for positive `n`. -/
def natToStrGo : Nat → Nat → Str
  | 0, _ => []
  | fuel + 1, n =>
    if n = 0 then []
    else natToStrGo fuel (n / 10) ++ [Char.ofNat (48 + n % 10)]

/-- Python's `str(n)` for a non-negative integer. -/
def natToStr (n : Nat) : Str :=
  if n = 0 then ['0'] else natToStrGo (n + 1) n

/-- Python's `int(s)` on a string of decimal digits (also the value
computed by `int(c.group(1).replace(',', ''))` once commas are gone). -/
def strToNat (s : Str) : Nat :=
  s.foldl (fun a c => 10 * a + (c.toNat - 48)) 0

/-! ## `re_rules_formatted`: the emphasis-stripping pass

Pattern `(\*{1,3})([^*\n]+)\1`, applied with `re.sub(r'\2', text)` in
`populate_spell_rules`.  A match at a given position needs an opening run
of `r` asterisks; the greedy `\*{1,3}` can only succeed with `d = r`
delimiters (for `d < r` the content would start with `*`), so a match
requires `1 ≤ r ≤ 3`, then a non-empty maximal run of characters that are
neither `*` nor a newline, then at least `r` closing asterisks, of which
exactly `r` are consumed by the backreference. -/

/-- Length of the leading run of `*` characters. -/
def starCount (s : Str) : Nat := (s.takeWhile (fun c => c = '*')).length

/-- Length of the leading run of `[^*\n]` characters. -/
def emphContentLen (s : Str) : Nat :=
  (s.takeWhile (fun c => c ≠ '*' && c ≠ '\n')).length

/-- Try to match `(\*{1,3})([^*\n]+)\1` at the head of `s`; on success
return the captured content (group 2) and the text after the match. -/
def emphMatch (s : Str) : Option (Str × Str) :=
  let r := starCount s
  if 1 ≤ r ∧ r ≤ 3 then
    let afterOpen := s.drop r
    let c := emphContentLen afterOpen
    if 1 ≤ c ∧ r ≤ starCount (afterOpen.drop c) then
      some (afterOpen.take c, afterOpen.drop (c + r))
    else none
  else none

/-- Fuelled worker of the substitution scan: at each position try the
pattern; on a match emit the captured group and resume after the match,
otherwise emit the character and advance one position (the `re.sub`
scan).  Fuel `s.length` always suffices, since every step consumes at
least one character. -/
def stripEmphGo : Nat → Str → Str
  | 0, s => s
  | _, [] => []
  | fuel + 1, c :: rest =>
    match emphMatch (c :: rest) with
    | some (content, after) => content ++ stripEmphGo fuel after
    | none => c :: stripEmphGo fuel rest

/-- `self.re_rules_formatted.sub(r'\2', s)`: strip bold/italic emphasis. -/
def stripEmph (s : Str) : Str := stripEmphGo s.length s

/-! ## Content segmentation (`create_spell_dict`, the `content` loop)

One raw content item is either a JSON string, a JSON list, or any other
JSON node (e.g. a table object); list items are themselves JSON nodes. -/

/-- A node of an entity's `content` array in the source JSON. -/
inductive ContentNode where
  | str (s : Str)
  | list (items : List ContentNode)
  | other

/-- The inner `isinstance(fragment, str)` loop: succeed with the fragment
texts iff every member of a JSON list is a string. -/
def allStrings : List ContentNode → Option (List Str)
  | [] => some []
  | ContentNode.str s :: rest => (allStrings rest).map (fun l => s :: l)
  | _ => none

/-- `'\n• '.join(txt)`. -/
def bulletJoin : List Str → Str
  | [] => []
  | [x] => x
  | x :: y :: rest => x ++ '\n' :: '•' :: ' ' :: bulletJoin (y :: rest)

/-- `'• ' + '\n• '.join(txt)`: flatten a list of strings to bullet text. -/
def bulletize (xs : List Str) : Str := '•' :: ' ' :: bulletJoin xs

/-- The duration marker literal searched for in each content item. -/
def durMarker : Str := "**Duration:**".toList

/-- Does the buffer end with two newlines (`content[segment][-2:] == '\n\n'`)? -/
def endsWithNN (b : Str) : Bool := pyStartsWith ['\n', '\n'] b.reverse

/-- `content[segment] += txt + '\n\n'` on the pair of buffers. -/
def appendSeg (c0 c1 : Str) (seg : Bool) (txt : Str) : Str × Str :=
  if seg then (c0, c1 ++ txt ++ ['\n', '\n']) else (c0 ++ txt ++ ['\n', '\n'], c1)

/-- The pre-list tweak: `content[segment] = content[segment][:-1]` when the
current buffer ends with a blank line. -/
def trimSeg (c0 c1 : Str) (seg : Bool) : Str × Str :=
  if seg then (c0, if endsWithNN c1 then c1.dropLast else c1)
  else (if endsWithNN c0 then c0.dropLast else c0, c1)

/-- The `for txt in spell_info['content']` loop of `create_spell_dict`:
accumulates the metadata buffer `c0` and the rules buffer `c1`; `seg`
is `segment == 1`.  An unsupported node (not a string, not a list of
strings) executes `break`, returning the buffers accumulated so far. -/
def segLoop : List ContentNode → Str → Str → Bool → Str × Str × Bool
  | [], c0, c1, seg => (c0, c1, seg)
  | ContentNode.str s :: rest, c0, c1, seg =>
    let p := appendSeg c0 c1 seg s
    segLoop rest p.1 p.2 (seg || isSubstr durMarker s)
  | ContentNode.list xs :: rest, c0, c1, seg =>
    match allStrings xs with
    | none => (c0, c1, seg)
    | some ss =>
      let txt := bulletize ss
      let t := trimSeg c0 c1 seg
      let p := appendSeg t.1 t.2 seg txt
      segLoop rest p.1 p.2 (seg || isSubstr durMarker txt)
  | ContentNode.other :: _, c0, c1, seg => (c0, c1, seg)

/-! ## The level/school/ritual patterns

`re_cantrip_school_ritual = \*(\w+) cantrip( \(ritual\))?\*` and
`re_lvl_school_ritual = \*(\d)\w\w-level (\w+)( \(ritual\))?\*`.
The greedy `\w+` stops at the first non-word character and cannot
usefully backtrack (the following literal starts with a space resp. a
hyphen, never a word character); the optional ` (ritual)` group either
matches with the closing `*` right after it, or is skipped with the
closing `*` immediately present. -/

/-- Match `( \(ritual\))?\*` at the head of `s`: returns the ritual flag
and the remainder after the closing `*`. -/
def ritualClose (s : Str) : Option (Bool × Str) :=
  match dropLit " (ritual)*".toList s with
  | some s3 => some (true, s3)
  | none =>
    match s with
    | '*' :: s3 => some (false, s3)
    | _ => none

/-- Try `\*(\w+) cantrip( \(ritual\))?\*` at the head of `s`; on success
return (school capture, ritual flag, text after the match). -/
def matchCantrip : Str → Option (Str × Bool × Str)
  | '*' :: s1 =>
    let w := s1.takeWhile wordChar
    if w = [] then none
    else
      match dropLit " cantrip".toList (s1.drop w.length) with
      | none => none
      | some s2 => (ritualClose s2).map (fun p => (w, p.1, p.2))
  | _ => none

/-- `re_cantrip_school_ritual.search`: leftmost match. -/
def searchCantrip : Str → Option (Str × Bool × Str)
  | [] => none
  | c :: rest =>
    match matchCantrip (c :: rest) with
    | some r => some r
    | none => searchCantrip rest

/-- Try `\*(\d)\w\w-level (\w+)( \(ritual\))?\*` at the head of `s`; on
success return (level digit, school capture, ritual flag, rest). -/
def matchLeveled : Str → Option (Char × Str × Bool × Str)
  | '*' :: d :: w1 :: w2 :: s1 =>
    if d.isDigit && wordChar w1 && wordChar w2 then
      match dropLit "-level ".toList s1 with
      | none => none
      | some s2 =>
        let w := s2.takeWhile wordChar
        if w = [] then none
        else (ritualClose (s2.drop w.length)).map (fun p => (d, w, p.1, p.2))
    else none
  | _ => none

/-- `re_lvl_school_ritual.search`: leftmost match. -/
def searchLeveled : Str → Option (Char × Str × Bool × Str)
  | [] => none
  | c :: rest =>
    match matchLeveled (c :: rest) with
    | some r => some r
    | none => searchLeveled rest

/-! ## The label-capture patterns

`re_casting_time`, `re_range`, `re_components` and `re_duration` all
have the shape: a literal label, then a capture of one or more
characters each of which is not a newline and does not begin the next
label (`(?:(?!\*\*Next|\n).)+`, or `[^\n]+` for the duration).  The
search scans left to right; when the label matches but the capture
would be empty, the whole pattern fails at that position and the scan
resumes one character further. -/

/-- The tempered capture `(?:(?!stop|\n).)+` (maximal, possibly empty
here; callers require non-emptiness). -/
def captureUntil (stop : Str) : Str → Str
  | [] => []
  | c :: rest =>
    if c = '\n' || pyStartsWith stop (c :: rest) then []
    else c :: captureUntil stop rest

/-- Generic `re.search` of a label-capture pattern: `labelMatch` consumes
the leading label returning the remainder, `stop` tempers the capture.
Returns (capture, text after the match end). -/
def searchCapture (labelMatch : Str → Option Str) (stop : Str) :
    Str → Option (Str × Str)
  | [] => none
  | c :: rest =>
    match labelMatch (c :: rest) with
    | some after =>
      let cap := captureUntil stop after
      if cap = [] then searchCapture labelMatch stop rest
      else some (cap, after.drop cap.length)
    | none => searchCapture labelMatch stop rest

/-- The label of `re_components`: `\*\*Components?:?\*\*:? ` (optional
`s`, optional first `:`, optional second `:`). -/
def matchComponentsLabel (s : Str) : Option Str :=
  match dropLit "**Component".toList s with
  | none => none
  | some s1 =>
    match dropLit "**".toList (dropOpt ':' (dropOpt 's' s1)) with
    | none => none
    | some s4 => dropLit [' '] (dropOpt ':' s4)

/-- `re_casting_time.search`: `\*\*Casting Time:\*\* ((?:(?!\*\*Range|\n).)+)`. -/
def searchCastTime : Str → Option (Str × Str) :=
  searchCapture (dropLit "**Casting Time:** ".toList) "**Range".toList

/-- `re_range.search`: `\*\*Range:\*\* ((?:(?!\*\*Component|\n).)+)`. -/
def searchRange : Str → Option (Str × Str) :=
  searchCapture (dropLit "**Range:** ".toList) "**Component".toList

/-- `re_components.search`: `\*\*Components?:?\*\*:? ((?:(?!\*\*Duration|\n).)+)`. -/
def searchComponents : Str → Option (Str × Str) :=
  searchCapture matchComponentsLabel "**Duration".toList

/-- `re_duration.search`: `\*\*Duration:\*\* ([^\n]+)`. -/
def searchDuration : Str → Option (Str × Str) :=
  searchCapture (dropLit "**Duration:** ".toList) ['\n']

/-! ## `re_mat_cost`: `\b(\d+(?:,\d{3})?) ?gp\b`, via `finditer`

The greedy `\d+` takes the maximal digit run (shrinking it can never
help: the next atom would then face a digit).  The optional `,\d{3}`
group is tried first; on its failure (or failure of the following
` ?gp\b`) the match is retried without it. -/

/-- Match ` ?gp\b` at the head of `rest`; returns the text after `gp`. -/
def gpTail (rest : Str) : Option Str :=
  match dropLit "gp".toList (dropOpt ' ' rest) with
  | none => none
  | some r2 =>
    match r2 with
    | [] => some []
    | c :: _ => if wordChar c then none else some r2

/-- Try the cost pattern at the head of `s` (the leading `\b` is checked
by the caller); on success return the parsed amount — the captured
digits with the comma removed, read as an integer — and the rest. -/
def gpMatchAt (s : Str) : Option (Nat × Str) :=
  let ds := s.takeWhile Char.isDigit
  if ds = [] then none
  else
    let after := s.drop ds.length
    match after with
    | ',' :: d1 :: d2 :: d3 :: rest =>
      if d1.isDigit && d2.isDigit && d3.isDigit then
        match gpTail rest with
        | some r => some (strToNat (ds ++ [d1, d2, d3]), r)
        | none => (gpTail after).map (fun r => (strToNat ds, r))
      else (gpTail after).map (fun r => (strToNat ds, r))
    | _ => (gpTail after).map (fun r => (strToNat ds, r))

/-- Fuelled `finditer` scan for `re_mat_cost`; `prevWord` records whether
the character before the current position is a word character (for the
leading `\b`).  After a match the scan resumes at the match end, whose
preceding character `p` is a word character.  Fuel `s.length` always
suffices: every step consumes at least one character. -/
def gpScanGo (fuel : Nat) (prevWord : Bool) (s : Str) : List Nat :=
  match fuel, s with
  | _, [] => []
  | 0, _ => []
  | fuel + 1, c :: rest =>
    if prevWord then gpScanGo fuel (wordChar c) rest
    else
      match gpMatchAt (c :: rest) with
      | some (n, r) => n :: gpScanGo fuel true r
      | none => gpScanGo fuel (wordChar c) rest

/-- The amounts of all matches of `re_mat_cost.finditer`, in text order. -/
def gpOccurrences (s : Str) : List Nat := gpScanGo s.length false s

/-- The `cost` accumulation loop of `populate_spell_metadata`:
`for c in finditer: cost += int(...)`. -/
def aggregateCost (s : Str) : Nat :=
  (gpOccurrences s).foldl (fun a n => a + n) 0

/-! ## `re_conc_dur`: `\bConcentration,? up to ([^\n]+)\b` -/

/-- Trim the greedy `[^\n]+` capture (given reversed) back to the first
position that is a word boundary against `next`, the character following
the capture (`none` at end of string). -/
def trimRevToBoundary : Str → Option Char → Option Str
  | [], _ => none
  | c :: rest, next =>
    let nextWord := match next with | some d => wordChar d | none => false
    if wordChar c ≠ nextWord then some (c :: rest).reverse
    else trimRevToBoundary rest (some c)

/-- Try `Concentration,? up to ([^\n]+)\b` at the head of `s` (the
leading `\b` is checked by the caller); returns the capture. -/
def concMatchAt (s : Str) : Option Str :=
  match dropLit "Concentration".toList s with
  | none => none
  | some s1 =>
    match dropLit " up to ".toList (dropOpt ',' s1) with
    | none => none
    | some s2 =>
      let cand := s2.takeWhile (fun c => c ≠ '\n')
      trimRevToBoundary cand.reverse ((s2.drop cand.length).head?)

/-- `re_conc_dur.search` scan with `\b` tracking. -/
def concSearchGo : Bool → Str → Option Str
  | _, [] => none
  | prevWord, c :: rest =>
    if prevWord then concSearchGo (wordChar c) rest
    else
      match concMatchAt (c :: rest) with
      | some cap => some cap
      | none => concSearchGo (wordChar c) rest

/-- `re_conc_dur.search(text)` from the start of a duration capture. -/
def concCapture (s : Str) : Option Str := concSearchGo false s

/-! ## The `Spell` record (`spell.py`)

Python `Spell` objects built by the extractor always carry every
attribute except `material_text` and `material_cost`, whose presence is
dynamic; those two become `Option` fields. -/

structure Spell where
  name : Str
  level : Nat
  school : Str
  classes : List Str
  cast_time : Str
  range : Str
  duration : Str
  concentration : Bool
  ritual : Bool
  verbal : Bool
  somatic : Bool
  material : Bool
  material_costly : Bool
  material_consumed : Bool
  material_text : Option Str
  material_cost : Option Str
  rules : Str
  source : Str
deriving DecidableEq

/-- The fields assigned by `populate_spell_metadata` (everything except
`name`, `source`, `classes` and the final `rules`); `rulesSeed` is the
rules text the casting-time step may pre-seed onto `spell.rules`. -/
structure MetaFields where
  level : Nat
  school : Str
  ritual : Bool
  cast_time : Str
  rulesSeed : Option Str
  range : Str
  verbal : Bool
  somatic : Bool
  material : Bool
  material_costly : Bool
  material_consumed : Bool
  material_text : Option Str
  material_cost : Option Str
  concentration : Bool
  duration : Str
deriving DecidableEq

/-- `RuntimeError` message of the level/school/ritual step. -/
def errLvl (name : Str) : Str :=
  "Unexpectedly unable to parse spell level, school, or ritual for spell \"".toList
    ++ name ++ "\". Aborting.".toList

/-- `RuntimeError` message of the casting-time step. -/
def errCast (name : Str) : Str :=
  "Unexpectedly unable to parse spell casting time for spell \"".toList
    ++ name ++ "\". Aborting.".toList

/-- `RuntimeError` message of the range step. -/
def errRange (name : Str) : Str :=
  "Unexpectedly unable to parse spell range for spell \"".toList
    ++ name ++ "\". Aborting.".toList

/-- `RuntimeError` message of the components step. -/
def errComp (name : Str) : Str :=
  "Unexpectedly unable to parse spell components for spell \"".toList
    ++ name ++ "\". Aborting.".toList

/-- `RuntimeError` message of the duration step. -/
def errDur (name : Str) : Str :=
  "Unexpectedly unable to parse spell duration for spell \"".toList
    ++ name ++ "\". Aborting.".toList

/-- The level/school/ritual step: the cantrip pattern is tried first, the
leveled pattern second; both failing raises.  Returns (level, school,
ritual, cursor), the cursor being the text after `match.end()`. -/
def parseLevelSchoolRitual (name meta : Str) :
    Except Str (Nat × Str × Bool × Str) :=
  match searchCantrip meta with
  | some (w, rit, rest) => Except.ok (0, pyTitle w, rit, rest)
  | none =>
    match searchLeveled meta with
    | some (d, w, rit, rest) =>
      Except.ok (d.toNat - 48, pyStrip (pyTitle w), rit, rest)
    | none => Except.error (errLvl name)

/-- The conditional-trigger phrase of the casting-time step. -/
def whichYouTake : Str := ", which you take when ".toList

/-- The casting-time step applied to the cursor suffix: returns
(cast_time, pre-seeded rules text, next cursor). -/
def parseCastTime (s : Str) : Option (Str × Option Str × Str) :=
  match searchCastTime s with
  | none => none
  | some (cap, rest) =>
    let ct0 :=
      if isSubstr whichYouTake cap then pyTitle (cap.takeWhile (fun c => c ≠ ','))
      else pyStrip (pyTitle cap)
    let seed : Option Str :=
      if isSubstr whichYouTake cap then some (cap ++ ['\n', '\n']) else none
    let ct :=
      if ct0 = "1 Bonus Action".toList then "Bonus".toList
      else if ct0 = "1 Reaction".toList then "Reaction".toList
      else ct0
    some (ct, seed, rest)

/-- The component flags and material data derived from the captured
components text (`types`/`material_text` handling, the cost loop, and
the consumption test of `populate_spell_metadata`). -/
structure CompFields where
  verbal : Bool
  somatic : Bool
  material : Bool
  material_costly : Bool
  material_consumed : Bool
  material_text : Option Str
  material_cost : Option Str
deriving DecidableEq

/-- The consumption phrase tested on the material text. -/
def consumesPhrase : Str := "which the spell consumes".toList

/-- The components step applied to the capture `cap` of `re_components`:
`types` is the text before a `(` if any, else the whole capture; a
parenthesized clause becomes `material_text`; cost and consumption are
derived only when `material` is set and a clause was captured, otherwise
a material spell gets the empty material text. -/
def parseComponents (cap : Str) : CompFields :=
  let hasParen := cap.contains '('
  let types := if hasParen then cap.takeWhile (fun c => c ≠ '(') else cap
  let mtext : Option Str :=
    if hasParen then
      some (((cap.dropWhile (fun c => c ≠ '(')).drop 1).takeWhile (fun c => c ≠ ')'))
    else none
  let verbal := types.contains 'V'
  let somatic := types.contains 'S'
  let material := types.contains 'M'
  if material then
    match mtext with
    | some t =>
      let cost := aggregateCost t
      { verbal, somatic, material,
        material_costly := decide (0 < cost),
        material_consumed := isSubstr consumesPhrase t,
        material_text := some t,
        material_cost :=
          if 0 < cost then some (natToStr cost ++ "gp".toList) else none }
    | none =>
      { verbal, somatic, material, material_costly := false,
        material_consumed := false, material_text := some [],
        material_cost := none }
  else
    { verbal, somatic, material, material_costly := false,
      material_consumed := false, material_text := mtext,
      material_cost := none }

/-- The duration step applied to the capture of `re_duration`: the
concentration sub-pattern selects the sub-capture, otherwise the full
capture with a literal `Instantaneous` normalized to `Instant`.  (The
subsequent `spell.duration.replace('one ', '1 ')` of the source discards
its result and therefore contributes nothing to the stored value; see
`pyReplace` for what it would have computed.) -/
def parseDurationValue (cap : Str) : Bool × Str :=
  match concCapture cap with
  | some sub => (true, sub)
  | none =>
    (false, if isSubstr "Instantaneous".toList cap then "Instant".toList else cap)

/-- `populate_spell_metadata(spell, meta_str)`: the five sequential,
cursor-advancing steps; any step failing to match raises (models the
uncaught `RuntimeError`). -/
def populateSpellMetadata (name meta : Str) : Except Str MetaFields :=
  match parseLevelSchoolRitual name meta with
  | Except.error e => Except.error e
  | Except.ok (lvl, sch, rit, rest1) =>
    match parseCastTime rest1 with
    | none => Except.error (errCast name)
    | some (ct, seed, rest2) =>
      match searchRange rest2 with
      | none => Except.error (errRange name)
      | some (rcap, rest3) =>
        match searchComponents rest3 with
        | none => Except.error (errComp name)
        | some (ccap, rest4) =>
          let comp := parseComponents ccap
          match searchDuration rest4 with
          | none => Except.error (errDur name)
          | some (dcap, _) =>
            let cd := parseDurationValue dcap
            Except.ok
              { level := lvl, school := sch, ritual := rit, cast_time := ct,
                rulesSeed := seed, range := pyStrip (pyTitle rcap),
                verbal := comp.verbal, somatic := comp.somatic,
                material := comp.material,
                material_costly := comp.material_costly,
                material_consumed := comp.material_consumed,
                material_text := comp.material_text,
                material_cost := comp.material_cost,
                concentration := cd.1, duration := cd.2 }

/-- `populate_spell_rules(spell, rule_str)`: append to the (possibly
pre-seeded) rules text, then strip emphasis in a single pass over the
whole accumulated text. -/
def populateSpellRules (seed : Option Str) (ruleStr : Str) : Str :=
  stripEmph ((match seed with | some s => s | none => []) ++ ruleStr)

/-- Assemble the finalized `Spell` from the parsed metadata and the raw
rules block (mirrors the attribute assignments of `create_spell_dict`,
`populate_spell_metadata` and `populate_spell_rules`). -/
def buildSpell (name : Str) (mf : MetaFields) (rulesRaw : Str) : Spell :=
  { name, source := "System Reference Document".toList, classes := [],
    level := mf.level, school := mf.school, ritual := mf.ritual,
    cast_time := mf.cast_time, range := mf.range, duration := mf.duration,
    concentration := mf.concentration, verbal := mf.verbal,
    somatic := mf.somatic, material := mf.material,
    material_costly := mf.material_costly,
    material_consumed := mf.material_consumed,
    material_text := mf.material_text, material_cost := mf.material_cost,
    rules := populateSpellRules mf.rulesSeed rulesRaw }

/-- One `create_spell_dict` loop iteration for a single entity:
`none` models `continue` (entity skipped with a printed notice);
`some (Except.error e)` models an uncaught `RuntimeError` escaping from
`populate_spell_metadata`; `some (Except.ok sp)` is a finalized spell. -/
def processEntity (name : Str) (content : Option (List ContentNode)) :
    Option (Except Str Spell) :=
  match content with
  | none => none
  | some items =>
    match segLoop items [] [] false with
    | (_, _, false) => none
    | (c0, c1, true) =>
      match populateSpellMetadata name (pyStrip c0) with
      | Except.error e => some (Except.error e)
      | Except.ok mf => some (Except.ok (buildSpell name mf (pyStrip c1)))

/-- `self.spells[name] = spell`: dictionary insertion (first-insertion
order, last write wins on a key collision). -/
def dictInsert (d : List (Str × Spell)) (k : Str) (v : Spell) :
    List (Str × Spell) :=
  if d.any (fun p => decide (p.1 = k)) then
    d.map (fun p => if p.1 = k then (k, v) else p)
  else d ++ [(k, v)]

/-- The `create_spell_dict` loop over all entities, accumulating the
spells dictionary; a skipped entity continues, an uncaught
`RuntimeError` propagates and aborts the whole batch. -/
def createSpellGo (acc : List (Str × Spell)) :
    List (Str × Option (List ContentNode)) → Except Str (List (Str × Spell))
  | [] => Except.ok acc
  | (name, content) :: rest =>
    match processEntity name content with
    | none => createSpellGo acc rest
    | some (Except.error e) => Except.error e
    | some (Except.ok sp) => createSpellGo (dictInsert acc name sp) rest

/-- `create_spell_dict(spell_data)` over the whole input batch. -/
def createSpellDict (entities : List (Str × Option (List ContentNode))) :
    Except Str (List (Str × Spell)) :=
  createSpellGo [] entities

/-! ## `add_class_info` -/

/-- `class_label.split(' ')[0]`: the first whitespace-delimited token. -/
def firstToken (label : Str) : Str := label.takeWhile (fun c => c ≠ ' ')

/-- `if spell_name in self.spells: self.spells[spell_name].classes.append(cls)`
on the dictionary (keys are unique, so updating every matching entry is
the dictionary update). -/
def appendClass (spells : List (Str × Spell)) (cls : Str) (n : Str) :
    List (Str × Spell) :=
  spells.map (fun p =>
    if p.1 = n then (p.1, { p.2 with classes := p.2.classes ++ [cls] }) else p)

/-- The `for spell_name in spell_list` loop. -/
def addNames (spells : List (Str × Spell)) (cls : Str) (names : List Str) :
    List (Str × Spell) :=
  names.foldl (fun sp n => appendClass sp cls n) spells

/-- The `for level_label, spell_list in class_section.items()` loop. -/
def addSections (spells : List (Str × Spell)) (cls : Str)
    (sections : List (Str × List Str)) : List (Str × Spell) :=
  sections.foldl (fun sp sec => addNames sp cls sec.2) spells

/-- `add_class_info(class_data)`: for each group label, annotate every
listed, existing spell with the label's first token. -/
def addClassInfo (spells : List (Str × Spell))
    (classData : List (Str × List (Str × List Str))) : List (Str × Spell) :=
  classData.foldl (fun sp g => addSections sp (firstToken g.1) g.2) spells

/-! ## CSV serialization (`spell.py`) -/

/-- One CSV row of the fixed schema, all cells text. -/
structure CsvRow where
  level : Str
  name : Str
  school : Str
  classes : Str
  range : Str
  cast_time : Str
  duration : Str
  concentration : Str
  ritual : Str
  verbal : Str
  somatic : Str
  material : Str
  material_costly : Str
  material_consumed : Str
  material_text : Str
  material_cost : Str
  rules : Str
  source : Str
deriving DecidableEq

/-- Booleans render as `yes`/`no`. -/
def yesNo (b : Bool) : Str := if b then "yes".toList else "no".toList

/-- `', '.join(classes)`. -/
def pyJoin : List Str → Str
  | [] => []
  | [x] => x
  | x :: y :: rest => x ++ ',' :: ' ' :: pyJoin (y :: rest)

/-- Worker for `pySplit`: scan for the leftmost `', '` separator,
accumulating the current piece. -/
def pySplitGo (cur : Str) : Str → List Str
  | [] => [cur]
  | [c] => [cur ++ [c]]
  | c :: c2 :: rest =>
    if c = ',' ∧ c2 = ' ' then cur :: pySplitGo [] rest
    else pySplitGo (cur ++ [c]) (c2 :: rest)

/-- Python's `s.split(', ')` (note: `''.split(', ') = ['']`). -/
def pySplit (s : Str) : List Str := pySplitGo [] s

/-- `to_csv_dict`: all attributes are present on extractor-built spells,
so only the two dynamic attributes take the `getattr` default `''`. -/
def toCsvDict (sp : Spell) : CsvRow :=
  { level := natToStr sp.level, name := sp.name, school := sp.school,
    classes := pyJoin sp.classes, range := sp.range,
    cast_time := sp.cast_time, duration := sp.duration,
    concentration := yesNo sp.concentration, ritual := yesNo sp.ritual,
    verbal := yesNo sp.verbal, somatic := yesNo sp.somatic,
    material := yesNo sp.material, material_costly := yesNo sp.material_costly,
    material_consumed := yesNo sp.material_consumed,
    material_text := sp.material_text.getD [],
    material_cost := sp.material_cost.getD [],
    rules := sp.rules, source := sp.source }

/-- `from_csv_dict` on a fresh `Spell()` (as `load_spells_from_csv`
does): `material_text` is only assigned when the parsed `material` flag
is set, and `material_cost` additionally requires a non-empty cell. -/
def fromCsvDict (row : CsvRow) : Spell :=
  let material := decide (row.material = "yes".toList)
  { level := strToNat row.level, name := row.name, school := row.school,
    classes := pySplit row.classes, range := row.range,
    cast_time := row.cast_time, duration := row.duration,
    concentration := decide (row.concentration = "yes".toList),
    ritual := decide (row.ritual = "yes".toList),
    verbal := decide (row.verbal = "yes".toList),
    somatic := decide (row.somatic = "yes".toList),
    material,
    material_costly := decide (row.material_costly = "yes".toList),
    material_consumed := decide (row.material_consumed = "yes".toList),
    material_text := if material then some row.material_text else none,
    material_cost :=
      if material then
        (if row.material_cost ≠ [] then some row.material_cost else none)
      else none,
    rules := row.rules, source := row.source }

/-! ## Characterization helpers used by the theorem statements -/

/-- `joinNN items` is what the segmentation loop accumulates for a run of
prose items: each item followed by a blank line. -/
def joinNN : List Str → Str
  | [] => []
  | s :: rest => s ++ '\n' :: '\n' :: joinNN rest

/-- A content node the segmentation loop can consume without `break`ing:
a string, or a list all of whose members are strings. -/
def supportedNode : ContentNode → Bool
  | ContentNode.str _ => true
  | ContentNode.list xs => (allStrings xs).isSome
  | ContentNode.other => false

/-- Does the text contain an occurrence of the `', '` separator? -/
def hasSepPair : Str → Bool
  | [] => false
  | c :: rest => (decide (c = ',') && decide (rest.head? = some ' ')) || hasSepPair rest

/-- Specification-side characterization of `add_class_info`: the group
tokens a record named `k` receives, one per occurrence of `k` in a
tier list, in document order. -/
def groupListings (k : Str)
    (classData : List (Str × List (Str × List Str))) : List Str :=
  classData.flatMap (fun g => g.2.flatMap (fun sec =>
    (sec.2.filter (fun n => decide (n = k))).map (fun _ => firstToken g.1)))

/-! ## Concrete sample data used by witnesses and counterexamples -/

/-- A well-formed metadata-and-marker content string. -/
def sampleMetaGood : Str :=
  ("*1st-level evocation*\n\n**Casting Time:** 1 action\n\n**Range:** Self\n\n"
    ++ "**Components:** V\n\n**Duration:** 1 round").toList

/-- A cantrip-form metadata content string. -/
def sampleMetaCantrip : Str :=
  ("*Evocation cantrip (ritual)*\n\n**Casting Time:** 1 action\n\n"
    ++ "**Range:** Self\n\n**Components:** V\n\n**Duration:** 1 round").toList

/-- Metadata that contains the duration marker but matches neither
level/school pattern. -/
def sampleMetaNoLvl : Str := "*gibberish*\n\n**Duration:** 1 round".toList

/-- Well-formed metadata whose components text has a parenthesized
clause but no `M` token. -/
def sampleMetaParen : Str :=
  ("*1st-level evocation*\n\n**Casting Time:** 1 action\n\n**Range:** Self\n\n"
    ++ "**Components:** V, S (a crystal)\n\n**Duration:** 1 round").toList

/-- An entity that parses successfully. -/
def goodEntity : Str × Option (List ContentNode) :=
  ("Good Spell".toList, some [ContentNode.str sampleMetaGood])

/-- An entity whose metadata block defeats the level/school patterns. -/
def badEntity : Str × Option (List ContentNode) :=
  ("Bad Spell".toList, some [ContentNode.str sampleMetaNoLvl])

/-- An entity whose components text has a clause but no `M`. -/
def parenEntity : Str × Option (List ContentNode) :=
  ("Paren Spell".toList, some [ContentNode.str sampleMetaParen])

/-- An entity with an unsupported (table-like) node after the duration
marker was found. -/
def tableEntity : Str × Option (List ContentNode) :=
  ("Table Spell".toList,
    some [ContentNode.str sampleMetaGood,
          ContentNode.str "First paragraph.".toList,
          ContentNode.other,
          ContentNode.str "Lost paragraph.".toList])

/-- An entity with an unsupported node before any duration marker. -/
def preMarkerEntity : Str × Option (List ContentNode) :=
  ("Pre Marker".toList,
    some [ContentNode.str "no marker here".toList,
          ContentNode.other,
          ContentNode.str sampleMetaGood])

/-- A concrete parsed record, as `create_spell_dict` would build it (used
by the `add_class_info` samples). -/
def sampleSpell : Spell :=
  { name := "Dissonant Whispers".toList, level := 1,
    school := "Enchantment".toList, classes := [],
    cast_time := "1 Action".toList, range := "60 Feet".toList,
    duration := "Instant".toList, concentration := false, ritual := false,
    verbal := true, somatic := false, material := false,
    material_costly := false, material_consumed := false,
    material_text := none, material_cost := none,
    rules := "r".toList, source := "System Reference Document".toList }

/-- Scenario E group section: one listed name exists, one does not. -/
def scenarioECd : List (Str × List (Str × List Str)) :=
  [("Bard Spells".toList,
    [("1st Level".toList,
      ["Dissonant Whispers".toList, "Missing Spell".toList])])]

/-- A group section listing the same name under two tiers of one group. -/
def dupCd : List (Str × List (Str × List Str)) :=
  [("Bard Spells".toList,
    [("1st Level".toList, ["Dissonant Whispers".toList]),
     ("2nd Level".toList, ["Dissonant Whispers".toList])])]

/-- A record satisfying the CSV round-trip side conditions. -/
def sampleRtSpell : Spell :=
  { name := "X".toList, level := 3, school := "Illusion".toList,
    classes := ["Bard".toList, "Wizard".toList],
    cast_time := "1 Action".toList, range := "Self".toList,
    duration := "Instant".toList, concentration := false, ritual := false,
    verbal := true, somatic := false, material := true,
    material_costly := true, material_consumed := false,
    material_text := some "a pearl".toList,
    material_cost := some "100gp".toList,
    rules := "r".toList, source := "SRD".toList }

/-- A record with an empty classes list (otherwise unremarkable). -/
def emptyClassesSpell : Spell :=
  { sampleRtSpell with
      classes := [], material := false, material_costly := false,
      material_text := none, material_cost := none }

/-- The metadata fields parsed from `sampleMetaCantrip`. -/
def sampleCantripMf : MetaFields :=
  { level := 0, school := "Evocation".toList, ritual := true,
    cast_time := "1 Action".toList, rulesSeed := none,
    range := "Self".toList, verbal := true, somatic := false,
    material := false, material_costly := false, material_consumed := false,
    material_text := none, material_cost := none,
    concentration := false, duration := "1 round".toList }

/-- Material text with two cost occurrences in one order. -/
def costT1 : Str := "5 gp and 10 gp".toList

/-- The same cost occurrences in the other order. -/
def costT2 : Str := "10 gp plus 5 gp".toList

/-- The components capture of Scenario B. -/
def capB : Str :=
  "V, S, M (a diamond worth 300 gp, which the spell consumes)".toList

/-- The material text of Scenario B. -/
def matB : Str := "a diamond worth 300 gp, which the spell consumes".toList

/-! # Theorems -/

/-- The emphasis pattern cannot match at a position that does not start
with an asterisk. -/
theorem emphMatch_no_star {c : Char} (rest : Str) (h : c ≠ '*') :
    emphMatch (c :: rest) = none := by
  simp [emphMatch, starCount, List.takeWhile_cons, h]

/-- The substitution scan leaves asterisk-free text unchanged. -/
theorem stripEmphGo_no_star :
    ∀ (fuel : Nat) (s : Str), (∀ c ∈ s, c ≠ '*') → stripEmphGo fuel s = s := by
  intro fuel
  induction fuel with
  | zero => intro s _; cases s <;> rfl
  | succ n ih =>
    intro s h
    cases s with
    | nil => rfl
    | cons c rest =>
      have hc : c ≠ '*' := h c (List.mem_cons_self c rest)
      simp only [stripEmphGo, emphMatch_no_star rest hc]
      simp [ih rest (fun x hx => h x (List.mem_cons_of_mem _ hx))]

/-- Claim C6 (corrected): the emphasis-stripping pass of
`populate_spell_rules` is idempotent on every input whose single-pass
output is free of the emphasis character (it is not idempotent on all
strings; see the counterexample). -/
theorem c6_amended (s : Str) (h : ∀ c ∈ stripEmph s, c ≠ '*') :
    stripEmph (stripEmph s) = stripEmph s :=
  stripEmphGo_no_star _ _ h

/-- Claim C6 witness: the amendment instantiated at a concrete string. -/
theorem c6_witness :
    (∀ c ∈ stripEmph "*hello*".toList, c ≠ '*') ∧
    stripEmph (stripEmph "*hello*".toList) = stripEmph "*hello*".toList :=
  ⟨by decide, c6_amended _ (by decide)⟩

/-- Claim C6 counterexample: one pass turns `**a*b*` into `*ab*`, and a
second pass strips further, to `ab` — the pass is not idempotent. -/
theorem c6_counterexample :
    stripEmph (stripEmph "**a*b*".toList) ≠ stripEmph "**a*b*".toList := by
  decide

/-- Claim C8 (confirmed): the stored concentration/duration pair is a
function of the captured duration text alone — the concentration
sub-capture when the sub-pattern matches, otherwise the full capture
with `Instantaneous` shortened to `Instant`; Scenario D holds, and the
trailing `replace('one ', '1 ')` of the source never changes the stored
value (its result is discarded: the stored duration still reads
`one minute` even though the replacement would have produced
`1 minute`). -/
theorem c8_confirmed : ∀ cap : Str,
    (∀ sub, concCapture cap = some sub → parseDurationValue cap = (true, sub)) ∧
    (concCapture cap = none →
      parseDurationValue cap =
        (false, if isSubstr "Instantaneous".toList cap then "Instant".toList else cap)) ∧
    parseDurationValue "Concentration, up to 10 minutes".toList
      = (true, "10 minutes".toList) ∧
    parseDurationValue "Instantaneous".toList = (false, "Instant".toList) ∧
    parseDurationValue "Concentration, up to one minute".toList
      = (true, "one minute".toList) ∧
    pyReplace "one ".toList "1 ".toList "one minute".toList ≠ "one minute".toList := by
  intro cap
  refine ⟨?_, ?_, by decide, by decide, by decide, by decide⟩
  · intro sub h
    simp [parseDurationValue, h]
  · intro h
    simp [parseDurationValue, h]

/-- Claim C8 witness: the concentration branch instantiated at the
Scenario D duration text. -/
theorem c8_witness :
    concCapture "Concentration, up to 10 minutes".toList = some "10 minutes".toList ∧
    parseDurationValue "Concentration, up to 10 minutes".toList
      = (true, "10 minutes".toList) :=
  ⟨by decide, (c8_confirmed _).1 _ (by decide)⟩

/-- The `cost +=` loop is summation. -/
theorem foldl_add_eq_sum : ∀ (l : List Nat) (a : Nat),
    l.foldl (fun x n => x + n) a = a + l.sum := by
  intro l
  induction l with
  | nil => intro a; simp
  | cons n t ih =>
    intro a
    simp only [List.foldl_cons, List.sum_cons, ih]
    omega

/-- Claim C10 (confirmed): the aggregate material cost is the sum of all
`<n> gp` occurrences and depends only on the multiset of occurrences
(order-independent); for a material spell with a captured material text,
`material_costly` is exactly positivity of that sum and `material_cost`
is the decimal sum with a `gp` suffix; Scenario B holds. -/
theorem c10_confirmed :
    (∀ t1 t2 : Str, (gpOccurrences t1).Perm (gpOccurrences t2) →
      aggregateCost t1 = aggregateCost t2) ∧
    (∀ cap t : Str, (parseComponents cap).material = true →
      (parseComponents cap).material_text = some t →
      (parseComponents cap).material_costly = decide (0 < aggregateCost t) ∧
      (parseComponents cap).material_cost =
        (if 0 < aggregateCost t then
          some (natToStr (aggregateCost t) ++ "gp".toList) else none)) ∧
    parseComponents capB =
      { verbal := true, somatic := true, material := true,
        material_costly := true, material_consumed := true,
        material_text := some matB, material_cost := some "300gp".toList } := by
  refine ⟨?_, ?_, by decide⟩
  · intro t1 t2 hperm
    unfold aggregateCost
    rw [foldl_add_eq_sum, foldl_add_eq_sum, hperm.sum_eq]
  · intro cap t hm ht
    cases hp : cap.contains '(' with
    | true =>
      cases hM : (cap.takeWhile (fun c => decide (c ≠ '('))).contains 'M' with
      | true =>
        simp only [parseComponents, hp, hM, eq_self_iff_true, if_true] at hm ht ⊢
        rw [Option.some.injEq] at ht
        subst ht
        exact ⟨rfl, rfl⟩
      | false =>
        simp only [parseComponents, hp, hM, eq_self_iff_true, if_true,
          Bool.false_eq_true, if_false] at hm
    | false =>
      cases hM : cap.contains 'M' with
      | true =>
        simp only [parseComponents, hp, hM, eq_self_iff_true, if_true,
          Bool.false_eq_true, if_false] at hm ht ⊢
        rw [Option.some.injEq] at ht
        subst ht
        exact ⟨by decide, by decide⟩
      | false =>
        simp only [parseComponents, hp, hM, eq_self_iff_true, if_true,
          Bool.false_eq_true, if_false] at hm

/-- Claim C10 witness: order-independence at two concrete texts with the
same occurrences in different orders, and the cost formula at the
Scenario B material text. -/
theorem c10_witness :
    (gpOccurrences costT1).Perm (gpOccurrences costT2) ∧
    aggregateCost costT1 = aggregateCost costT2 ∧
    (parseComponents capB).material_costly = decide (0 < aggregateCost matB) := by
  have hp : (gpOccurrences costT1).Perm (gpOccurrences costT2) := by
    rw [(by decide : gpOccurrences costT1 = [5, 10]),
        (by decide : gpOccurrences costT2 = [10, 5])]
    exact List.Perm.swap 10 5 []
  exact ⟨hp, c10_confirmed.1 costT1 costT2 hp,
    (c10_confirmed.2.1 capB matB (by decide) (by decide)).1⟩

/-- `joinNN` distributes over list concatenation. -/
theorem joinNN_append : ∀ l1 l2 : List Str,
    joinNN (l1 ++ l2) = joinNN l1 ++ joinNN l2 := by
  intro l1 l2
  induction l1 with
  | nil => rfl
  | cons s rest ih => simp [joinNN, ih]

/-- Once the duration marker has been seen (`segment == 1`), every
further prose item is appended to the rules buffer. -/
theorem segLoop_rules_prose : ∀ (post : List Str) (c0 c1 : Str),
    segLoop (post.map ContentNode.str) c0 c1 true = (c0, c1 ++ joinNN post, true) := by
  intro post
  induction post with
  | nil => intro c0 c1; simp [segLoop, joinNN]
  | cons s rest ih =>
    intro c0 c1
    simp [segLoop, appendSeg, ih, joinNN]

/-- Before the duration marker has been seen, prose items accumulate on
the metadata buffer. -/
theorem segLoop_meta_prose : ∀ (pre : List Str) (L : List ContentNode) (c0 c1 : Str),
    (∀ s ∈ pre, isSubstr durMarker s = false) →
    segLoop (pre.map ContentNode.str ++ L) c0 c1 false
      = segLoop L (c0 ++ joinNN pre) c1 false := by
  intro pre
  induction pre with
  | nil => intro L c0 c1 _; simp [joinNN]
  | cons s rest ih =>
    intro L c0 c1 h
    have hs : isSubstr durMarker s = false := h s (List.mem_cons_self s rest)
    simp only [List.map_cons, List.cons_append, segLoop, appendSeg, hs,
      Bool.false_or, Bool.false_eq_true, if_false, List.append_eq]
    rw [ih L _ c1 (fun x hx => h x (List.mem_cons_of_mem _ hx))]
    simp [joinNN]

/-- Claim C2 (corrected): the segmentation loop appends each item to the
metadata buffer up to AND INCLUDING the first item containing the
duration marker; only the items strictly after that one go to the rules
buffer — the marker item's text ends up in the metadata block, not the
rules block. -/
theorem c2_amended : ∀ (pre : List Str) (x : Str) (post : List Str),
    (∀ s ∈ pre, isSubstr durMarker s = false) → isSubstr durMarker x = true →
    segLoop ((pre ++ x :: post).map ContentNode.str) [] [] false
      = (joinNN (pre ++ [x]), joinNN post, true) := by
  intro pre x post hpre hx
  rw [List.map_append, segLoop_meta_prose pre _ [] [] hpre]
  simp only [List.map_cons, segLoop, appendSeg, hx, Bool.false_or,
    Bool.false_eq_true, if_false, List.nil_append]
  rw [segLoop_rules_prose, joinNN_append]
  simp [joinNN]

/-- Claim C2 witness: the amended segmentation at a concrete three-item
content sequence. -/
theorem c2_witness :
    (∀ s ∈ ["intro".toList], isSubstr durMarker s = false) ∧
    isSubstr durMarker "**Duration:** 1 round".toList = true ∧
    segLoop ((["intro".toList] ++ "**Duration:** 1 round".toList :: ["tail".toList]).map
        ContentNode.str) [] [] false
      = (joinNN ["intro".toList, "**Duration:** 1 round".toList],
         joinNN ["tail".toList], true) :=
  ⟨by decide, by decide,
   c2_amended ["intro".toList] "**Duration:** 1 round".toList ["tail".toList]
     (by decide) (by decide)⟩

/-- Claim C2 counterexample: on a concrete content sequence the
marker-containing item's text lands in the metadata block and is absent
from the rules block, contradicting the claim that it belongs to the
rules block. -/
theorem c2_counterexample :
    isSubstr durMarker
      (segLoop [ContentNode.str "intro".toList,
                ContentNode.str "**Duration:** 1 round".toList,
                ContentNode.str "tail".toList] [] [] false).1 = true ∧
    isSubstr durMarker
      (segLoop [ContentNode.str "intro".toList,
                ContentNode.str "**Duration:** 1 round".toList,
                ContentNode.str "tail".toList] [] [] false).2.1 = false := by
  decide

/-- An unsupported node makes the segmentation loop `break` at once. -/
theorem segLoop_break (bad : ContentNode) (post : List ContentNode)
    (c0 c1 : Str) (seg : Bool) (h : supportedNode bad = false) :
    segLoop (bad :: post) c0 c1 seg = (c0, c1, seg) := by
  cases bad with
  | str s => simp [supportedNode] at h
  | other => rfl
  | list xs =>
    cases hxs : allStrings xs with
    | some ss =>
      rw [supportedNode, hxs] at h
      simp at h
    | none => simp [segLoop, hxs]

/-- Everything after the first unsupported node is invisible to the
segmentation loop. -/
theorem segLoop_truncate : ∀ (pre : List ContentNode) (bad : ContentNode)
    (post : List ContentNode) (c0 c1 : Str) (seg : Bool),
    pre.all supportedNode = true → supportedNode bad = false →
    segLoop (pre ++ bad :: post) c0 c1 seg = segLoop pre c0 c1 seg := by
  intro pre
  induction pre with
  | nil =>
    intro bad post c0 c1 seg _ hbad
    rw [List.nil_append, segLoop_break bad post c0 c1 seg hbad]
    rfl
  | cons n pre' ih =>
    intro bad post c0 c1 seg hall hbad
    rw [List.all_cons, Bool.and_eq_true] at hall
    cases n with
    | str s =>
      simp only [List.cons_append, segLoop]
      exact ih bad post _ _ _ hall.2 hbad
    | list xs =>
      cases hxs : allStrings xs with
      | some ss =>
        simp only [List.cons_append, segLoop, hxs]
        exact ih bad post _ _ _ hall.2 hbad
      | none =>
        rw [supportedNode, hxs] at hall
        simp at hall
    | other => simp [supportedNode] at hall

/-- Claim C4 (corrected): an unsupported content item truncates the
entity's content at that point rather than excluding the entity
outright: processing the entity equals processing only the items before
the unsupported one.  Hence if the duration marker was already found the
entity IS emitted (with rules truncated at the unsupported item), and it
is excluded only when the marker had not yet been seen. -/
theorem c4_amended :
    (∀ (name : Str) (pre : List ContentNode) (bad : ContentNode)
      (post : List ContentNode),
      pre.all supportedNode = true → supportedNode bad = false →
      processEntity name (some (pre ++ bad :: post)) = processEntity name (some pre)) ∧
    Except.map (List.map Prod.fst) (createSpellDict [tableEntity])
      = Except.ok ["Table Spell".toList] ∧
    Except.map (List.map (fun p => p.2.rules)) (createSpellDict [tableEntity])
      = Except.ok ["First paragraph.".toList] ∧
    createSpellDict [preMarkerEntity] = Except.ok [] := by
  refine ⟨?_, by decide, by decide, by decide⟩
  intro name pre bad post hall hbad
  simp only [processEntity, segLoop_truncate pre bad post [] [] false hall hbad]

/-- Claim C4 witness: the truncation equation at the table entity's
content. -/
theorem c4_witness :
    processEntity "Table Spell".toList
      (some ([ContentNode.str sampleMetaGood,
              ContentNode.str "First paragraph.".toList]
        ++ ContentNode.other :: [ContentNode.str "Lost paragraph.".toList]))
    = processEntity "Table Spell".toList
        (some [ContentNode.str sampleMetaGood,
               ContentNode.str "First paragraph.".toList]) :=
  c4_amended.1 "Table Spell".toList
    [ContentNode.str sampleMetaGood, ContentNode.str "First paragraph.".toList]
    ContentNode.other [ContentNode.str "Lost paragraph.".toList]
    (by decide) (by decide)

/-- Claim C4 counterexample: the entity with a table node after the
duration marker is NOT excluded — a record named `Table Spell` is
emitted, contradicting the claim. -/
theorem c4_counterexample :
    Except.map (List.map Prod.fst)
      (createSpellDict [("Table Spell".toList,
        some [ContentNode.str sampleMetaGood,
              ContentNode.str "First paragraph.".toList,
              ContentNode.other,
              ContentNode.str "Lost paragraph.".toList])])
      = Except.ok ["Table Spell".toList] := by
  decide

/-- Claim C1 (corrected): when an entity's metadata block defeats the
level/school patterns or a required label, `populate_spell_metadata`
raises a `RuntimeError` that nothing catches: the result of the whole
batch extraction is that error (naming the entity), and the remaining
entities are never processed — the batch does NOT continue. -/
theorem c1_amended : ∀ (name : Str) (items : List ContentNode)
    (rest : List (Str × Option (List ContentNode))) (c0 c1 e : Str),
    segLoop items [] [] false = (c0, c1, true) →
    populateSpellMetadata name (pyStrip c0) = Except.error e →
    createSpellDict ((name, some items) :: rest) = Except.error e := by
  intro name items rest c0 c1 e hseg hpop
  simp only [createSpellDict, createSpellGo, processEntity, hseg, hpop]

/-- Claim C1 witness: the amended claim at a concrete malformed entity. -/
theorem c1_witness :
    createSpellDict [("Bad Spell".toList, some [ContentNode.str sampleMetaNoLvl])]
      = Except.error (errLvl "Bad Spell".toList) :=
  c1_amended "Bad Spell".toList [ContentNode.str sampleMetaNoLvl] []
    (sampleMetaNoLvl ++ ['\n', '\n']) [] (errLvl "Bad Spell".toList)
    (by decide) (by decide)

/-- Claim C1 counterexample: a batch of a malformed entity followed by a
well-formed one aborts with the error for the malformed entity — the
well-formed entity is not extracted, contradicting the claim that only
the failing entity is dropped and processing continues. -/
theorem c1_counterexample :
    createSpellDict [badEntity, goodEntity]
      = Except.error (errLvl "Bad Spell".toList) := by
  decide

/-- Inversion of a successful `populate_spell_metadata` run: all five
steps matched, and every field of the result is determined by the
corresponding capture. -/
theorem populate_inv {name meta : Str} {mf : MetaFields}
    (h : populateSpellMetadata name meta = Except.ok mf) :
    ∃ lvl sch rit rest1 ct seed rest2 rcap rest3 ccap rest4 dcap rest5,
      parseLevelSchoolRitual name meta = Except.ok (lvl, sch, rit, rest1) ∧
      parseCastTime rest1 = some (ct, seed, rest2) ∧
      searchRange rest2 = some (rcap, rest3) ∧
      searchComponents rest3 = some (ccap, rest4) ∧
      searchDuration rest4 = some (dcap, rest5) ∧
      mf = { level := lvl, school := sch, ritual := rit, cast_time := ct,
             rulesSeed := seed, range := pyStrip (pyTitle rcap),
             verbal := (parseComponents ccap).verbal,
             somatic := (parseComponents ccap).somatic,
             material := (parseComponents ccap).material,
             material_costly := (parseComponents ccap).material_costly,
             material_consumed := (parseComponents ccap).material_consumed,
             material_text := (parseComponents ccap).material_text,
             material_cost := (parseComponents ccap).material_cost,
             concentration := (parseDurationValue dcap).1,
             duration := (parseDurationValue dcap).2 } := by
  unfold populateSpellMetadata at h
  cases h1 : parseLevelSchoolRitual name meta with
  | error e => rw [h1] at h; exact absurd h (by simp)
  | ok q =>
    obtain ⟨lvl, sch, rit, rest1⟩ := q
    rw [h1] at h
    dsimp only [] at h
    cases h2 : parseCastTime rest1 with
    | none => rw [h2] at h; exact absurd h (by simp)
    | some q2 =>
      obtain ⟨ct, seed, rest2⟩ := q2
      rw [h2] at h
      dsimp only [] at h
      cases h3 : searchRange rest2 with
      | none => rw [h3] at h; exact absurd h (by simp)
      | some q3 =>
        obtain ⟨rcap, rest3⟩ := q3
        rw [h3] at h
        dsimp only [] at h
        cases h4 : searchComponents rest3 with
        | none => rw [h4] at h; exact absurd h (by simp)
        | some q4 =>
          obtain ⟨ccap, rest4⟩ := q4
          rw [h4] at h
          dsimp only [] at h
          cases h5 : searchDuration rest4 with
          | none => rw [h5] at h; exact absurd h (by simp)
          | some q5 =>
            obtain ⟨dcap, rest5⟩ := q5
            rw [h5] at h
            dsimp only [] at h
            rw [Except.ok.injEq] at h
            exact ⟨lvl, sch, rit, rest1, ct, seed, rest2, rcap, rest3,
              ccap, rest4, dcap, rest5, rfl, h2, h3, h4, h5, h.symm⟩

/-- Presence of a conditionally built option mirrors its condition. -/
theorem isSome_pos_ite (n : Nat) (x : Str) :
    (if 0 < n then some x else none).isSome = decide (0 < n) := by
  by_cases h : 0 < n <;> simp [h]

/-- Presence of the optional component fields, characterized over all
component captures. -/
theorem comp_presence (cap : Str) :
    (parseComponents cap).material_text.isSome
      = ((parseComponents cap).material || cap.contains '(') ∧
    (parseComponents cap).material_cost.isSome
      = (parseComponents cap).material_costly := by
  cases hp : cap.contains '(' with
  | true =>
    cases hM : (cap.takeWhile (fun c => decide (c ≠ '('))).contains 'M' with
    | true =>
      simp only [parseComponents, hp, hM, eq_self_iff_true, if_true]
      constructor
      · simp
      · exact isSome_pos_ite _ _
    | false =>
      simp only [parseComponents, hp, hM, eq_self_iff_true, if_true,
        Bool.false_eq_true, if_false]
      simp
  | false =>
    cases hM : cap.contains 'M' with
    | true =>
      simp only [parseComponents, hp, hM, eq_self_iff_true, if_true,
        Bool.false_eq_true, if_false]
      simp
    | false =>
      simp only [parseComponents, hp, hM, eq_self_iff_true, if_true,
        Bool.false_eq_true, if_false]
      simp

/-- Claim C3 (corrected): `material_cost` presence does mirror
`material_costly`, but `material_text` is present exactly when
`material` is true OR the captured components text contains `(` — a
parenthesized clause without an `M` token still sets `material_text`
(so presence does not mirror the `material` flag).  On emitted records,
`material = true` still guarantees `material_text` presence. -/
theorem c3_amended :
    (∀ cap : Str,
      (parseComponents cap).material_text.isSome
        = ((parseComponents cap).material || cap.contains '(') ∧
      (parseComponents cap).material_cost.isSome
        = (parseComponents cap).material_costly) ∧
    (∀ (name meta : Str) (mf : MetaFields),
      populateSpellMetadata name meta = Except.ok mf →
      mf.material_cost.isSome = mf.material_costly ∧
      (mf.material = true → mf.material_text.isSome = true)) := by
  refine ⟨comp_presence, ?_⟩
  intro name meta mf h
  obtain ⟨lvl, sch, rit, rest1, ct, seed, rest2, rcap, rest3, ccap, rest4,
    dcap, rest5, _, _, _, _, _, hmf⟩ := populate_inv h
  subst hmf
  refine ⟨(comp_presence ccap).2, ?_⟩
  intro hm
  have hm' : (parseComponents ccap).material = true := hm
  show (parseComponents ccap).material_text.isSome = true
  rw [(comp_presence ccap).1, hm']
  rfl

/-- Claim C3 counterexample: a successfully emitted record whose
components capture was `V, S (a crystal)` has `material = false` yet a
present `material_text` — optional-field presence does not mirror the
`material` flag. -/
theorem c3_counterexample :
    Except.map (List.map (fun p => (p.2.material, p.2.material_text)))
      (createSpellDict [parenEntity])
      = Except.ok [(false, some "a crystal".toList)] := by
  decide

/-- Claim C3 witness: the emitted-record half of the amendment at a
concrete spell. -/
theorem c3_witness :
    populateSpellMetadata "W".toList sampleMetaCantrip = Except.ok sampleCantripMf ∧
    sampleCantripMf.material_cost.isSome = sampleCantripMf.material_costly :=
  ⟨by decide,
   (c3_amended.2 "W".toList sampleMetaCantrip sampleCantripMf (by decide)).1⟩

/-- Claim C5 (confirmed): when the cantrip pattern matches, the record
gets `level = 0`, the captured school (title-cased) and the ritual flag;
when it does not and the leveled pattern matches, the record gets the
captured digit as level, the captured school (title-cased, stripped) and
the ritual flag; Scenario C's metadata yields
`level = 0, school = Evocation, ritual = true`. -/
theorem c5_confirmed :
    (∀ (name meta w : Str) (rit : Bool) (rest : Str) (mf : MetaFields),
      searchCantrip meta = some (w, rit, rest) →
      populateSpellMetadata name meta = Except.ok mf →
      mf.level = 0 ∧ mf.school = pyTitle w ∧ mf.ritual = rit) ∧
    (∀ (name meta : Str) (d : Char) (w : Str) (rit : Bool) (rest : Str)
      (mf : MetaFields),
      searchCantrip meta = none → searchLeveled meta = some (d, w, rit, rest) →
      populateSpellMetadata name meta = Except.ok mf →
      mf.level = d.toNat - 48 ∧ mf.school = pyStrip (pyTitle w) ∧ mf.ritual = rit) ∧
    parseLevelSchoolRitual "X".toList "*Evocation cantrip (ritual)*...".toList
      = Except.ok (0, "Evocation".toList, true, "...".toList) := by
  refine ⟨?_, ?_, by decide⟩
  · intro name meta w rit rest mf hc h
    obtain ⟨lvl, sch, rit', rest1, ct, seed, rest2, rcap, rest3, ccap, rest4,
      dcap, rest5, hlsr, _, _, _, _, hmf⟩ := populate_inv h
    have hlsr' : parseLevelSchoolRitual name meta
        = Except.ok (0, pyTitle w, rit, rest) := by
      unfold parseLevelSchoolRitual
      rw [hc]
    rw [hlsr'] at hlsr
    rw [Except.ok.injEq, Prod.mk.injEq, Prod.mk.injEq, Prod.mk.injEq] at hlsr
    subst hmf
    exact ⟨hlsr.1.symm, hlsr.2.1.symm, hlsr.2.2.1.symm⟩
  · intro name meta d w rit rest mf hc hl h
    obtain ⟨lvl, sch, rit', rest1, ct, seed, rest2, rcap, rest3, ccap, rest4,
      dcap, rest5, hlsr, _, _, _, _, hmf⟩ := populate_inv h
    have hlsr' : parseLevelSchoolRitual name meta
        = Except.ok (d.toNat - 48, pyStrip (pyTitle w), rit, rest) := by
      unfold parseLevelSchoolRitual
      rw [hc, hl]
    rw [hlsr'] at hlsr
    rw [Except.ok.injEq, Prod.mk.injEq, Prod.mk.injEq, Prod.mk.injEq] at hlsr
    subst hmf
    exact ⟨hlsr.1.symm, hlsr.2.1.symm, hlsr.2.2.1.symm⟩

/-- Claim C5 witness: the cantrip branch applied at a concrete cantrip
metadata block. -/
theorem c5_witness :
    searchCantrip sampleMetaCantrip
      = some ("Evocation".toList, true,
        ("\n\n**Casting Time:** 1 action\n\n**Range:** Self\n\n"
          ++ "**Components:** V\n\n**Duration:** 1 round").toList) ∧
    populateSpellMetadata "W".toList sampleMetaCantrip = Except.ok sampleCantripMf ∧
    sampleCantripMf.level = 0 ∧
    sampleCantripMf.school = pyTitle "Evocation".toList ∧
    sampleCantripMf.ritual = true :=
  ⟨by decide, by decide,
   c5_confirmed.1 "W".toList sampleMetaCantrip "Evocation".toList true
     ("\n\n**Casting Time:** 1 action\n\n**Range:** Self\n\n"
       ++ "**Components:** V\n\n**Duration:** 1 round").toList
     sampleCantripMf (by decide) (by decide)⟩

/-- Appending nothing to every record's class list is the identity. -/
theorem map_classes_nil : ∀ l : List (Str × Spell),
    l.map (fun p => (p.1, { p.2 with classes := p.2.classes ++ [] })) = l := by
  intro l
  induction l with
  | nil => rfl
  | cons p t ih => cases p; simp [ih]

/-- Pointwise-equal class-list updates give equal maps. -/
theorem map_classes_congr (f g : Str × Spell → List Str) (h : ∀ p, f p = g p) :
    ∀ sp : List (Str × Spell),
    sp.map (fun p => (p.1, { p.2 with classes := p.2.classes ++ f p }))
      = sp.map (fun p => (p.1, { p.2 with classes := p.2.classes ++ g p })) := by
  intro sp
  induction sp with
  | nil => rfl
  | cons p t ih => simp [ih, h p]

/-- `appendClass` on an already-updated list folds into the update. -/
theorem appendClass_map (cls n : Str) (acc : Str × Spell → List Str) :
    ∀ sp : List (Str × Spell),
    appendClass (sp.map (fun p => (p.1, { p.2 with classes := p.2.classes ++ acc p })))
        cls n
      = sp.map (fun p => (p.1, { p.2 with classes := p.2.classes
          ++ (acc p ++ (if n = p.1 then [cls] else [])) })) := by
  intro sp
  induction sp with
  | nil => rfl
  | cons p t ih =>
    rw [List.map_cons,
      show ∀ (q : Str × Spell) (l : List (Str × Spell)), appendClass (q :: l) cls n
        = (if q.1 = n then (q.1, { q.2 with classes := q.2.classes ++ [cls] }) else q)
          :: appendClass l cls n from fun q l => rfl]
    rw [ih, List.map_cons]
    congr 1
    cases p with
    | mk k spl =>
      by_cases hk : k = n
      · simp [hk, List.append_assoc]
      · simp [hk, Ne.symm hk]

/-- The innermost `add_class_info` loop on an already-updated list. -/
theorem addNames_map (cls : Str) :
    ∀ (names : List Str) (acc : Str × Spell → List Str) (sp : List (Str × Spell)),
    addNames (sp.map (fun p => (p.1, { p.2 with classes := p.2.classes ++ acc p })))
        cls names
      = sp.map (fun p => (p.1, { p.2 with classes := p.2.classes
          ++ (acc p ++ (names.filter (fun m => decide (m = p.1))).map (fun _ => cls)) })) := by
  intro names
  induction names with
  | nil =>
    intro acc sp
    exact map_classes_congr _ _ (fun p => by simp) sp
  | cons n ns ih =>
    intro acc sp
    rw [show ∀ L : List (Str × Spell), addNames L cls (n :: ns)
        = addNames (appendClass L cls n) cls ns from fun L => rfl]
    rw [appendClass_map, ih]
    refine map_classes_congr _ _ (fun p => ?_) sp
    by_cases hnp : n = p.1
    · simp [List.filter_cons, hnp, List.append_assoc]
    · simp [List.filter_cons, hnp]

/-- The middle `add_class_info` loop on an already-updated list. -/
theorem addSections_map (cls : Str) :
    ∀ (sections : List (Str × List Str)) (acc : Str × Spell → List Str)
      (sp : List (Str × Spell)),
    addSections (sp.map (fun p => (p.1, { p.2 with classes := p.2.classes ++ acc p })))
        cls sections
      = sp.map (fun p => (p.1, { p.2 with classes := p.2.classes
          ++ (acc p ++ sections.flatMap (fun sec =>
              (sec.2.filter (fun m => decide (m = p.1))).map (fun _ => cls))) })) := by
  intro sections
  induction sections with
  | nil =>
    intro acc sp
    exact map_classes_congr _ _ (fun p => by simp) sp
  | cons sec secs ih =>
    intro acc sp
    rw [show ∀ L : List (Str × Spell), addSections L cls (sec :: secs)
        = addSections (addNames L cls sec.2) cls secs from fun L => rfl]
    rw [addNames_map, ih]
    refine map_classes_congr _ _ (fun p => ?_) sp
    simp [List.flatMap_cons, List.append_assoc]

/-- `add_class_info` on an already-updated list. -/
theorem addClassInfo_map :
    ∀ (cd : List (Str × List (Str × List Str))) (acc : Str × Spell → List Str)
      (sp : List (Str × Spell)),
    addClassInfo (sp.map (fun p => (p.1, { p.2 with classes := p.2.classes ++ acc p })))
        cd
      = sp.map (fun p => (p.1, { p.2 with classes := p.2.classes
          ++ (acc p ++ groupListings p.1 cd) })) := by
  intro cd
  induction cd with
  | nil =>
    intro acc sp
    exact map_classes_congr _ _ (fun p => by simp [groupListings]) sp
  | cons g gs ih =>
    intro acc sp
    rw [show ∀ L : List (Str × Spell), addClassInfo L (g :: gs)
        = addClassInfo (addSections L (firstToken g.1) g.2) gs from fun L => rfl]
    rw [addSections_map, ih]
    refine map_classes_congr _ _ (fun p => ?_) sp
    simp [groupListings, List.flatMap_cons, List.append_assoc]

/-- `add_class_info` in per-record form. -/
theorem addClassInfo_char : ∀ (cd : List (Str × List (Str × List Str)))
    (sp : List (Str × Spell)),
    addClassInfo sp cd
      = sp.map (fun p =>
          (p.1, { p.2 with classes := p.2.classes ++ groupListings p.1 cd })) := by
  intro cd sp
  conv_lhs => rw [← map_classes_nil sp]
  rw [addClassInfo_map]
  exact map_classes_congr _ _ (fun p => by simp) sp

/-- Claim C9 (corrected): after `add_class_info`, each record's class
list is its previous list extended by one occurrence of the group
label's first token per listing of the record's name (duplicates are
possible — the value is a list, not a deduplicated set); names listed in
the group section but absent from the records are ignored, and a record
listed nowhere keeps its (empty, never null) class list; Scenario E
holds. -/
theorem c9_amended :
    (∀ (spells : List (Str × Spell)) (cd : List (Str × List (Str × List Str))),
      addClassInfo spells cd
        = spells.map (fun p =>
            (p.1, { p.2 with classes := p.2.classes ++ groupListings p.1 cd }))) ∧
    addClassInfo [("Dissonant Whispers".toList, sampleSpell)] scenarioECd
      = [("Dissonant Whispers".toList,
          { sampleSpell with classes := ["Bard".toList] })] ∧
    addClassInfo [("Dissonant Whispers".toList, sampleSpell)] []
      = [("Dissonant Whispers".toList, sampleSpell)] :=
  ⟨fun spells cd => addClassInfo_char cd spells, by decide, by decide⟩

/-- Claim C9 counterexample: a name listed under two tiers of one group
receives the group token twice — the class list is not a set with each
group name occurring at most once. -/
theorem c9_counterexample :
    (addClassInfo [("Dissonant Whispers".toList, sampleSpell)] dupCd).map
        (fun p => p.2.classes)
      = [["Bard".toList, "Bard".toList]] ∧
    ["Bard".toList, "Bard".toList].count "Bard".toList = 2 := by
  decide

/-- Decimal digits read back to their value. -/
theorem charVal (d : Nat) (hd : d < 10) : (Char.ofNat (48 + d)).toNat - 48 = d := by
  interval_cases d <;> decide

/-- Folding the `int()` step over an emitted digit string recovers the
value (with the accumulator scaled by the digit count). -/
theorem natToStrGo_foldl : ∀ fuel n a : Nat, n < fuel →
    (natToStrGo fuel n).foldl (fun x c => 10 * x + (c.toNat - 48)) a
      = a * 10 ^ (natToStrGo fuel n).length + n := by
  intro fuel
  induction fuel with
  | zero => intro n a h; exact absurd h (Nat.not_lt_zero n)
  | succ f ih =>
    intro n a h
    by_cases hn : n = 0
    · subst hn; simp [natToStrGo]
    · have hdiv : n / 10 < f := by
        have h1 : n / 10 < n := Nat.div_lt_self (Nat.pos_of_ne_zero hn) (by norm_num)
        omega
      rw [show natToStrGo (f + 1) n
          = natToStrGo f (n / 10) ++ [Char.ofNat (48 + n % 10)] from by
        rw [natToStrGo, if_neg hn]]
      rw [List.foldl_append, ih (n / 10) a hdiv]
      simp only [List.foldl_cons, List.foldl_nil, List.length_append,
        List.length_cons, List.length_nil]
      rw [charVal (n % 10) (Nat.mod_lt n (by norm_num))]
      have hdm := Nat.div_add_mod n 10
      rw [pow_succ]
      ring_nf
      omega

/-- `int(str(n)) == n`. -/
theorem strToNat_natToStr (n : Nat) : strToNat (natToStr n) = n := by
  by_cases hn : n = 0
  · subst hn; decide
  · unfold natToStr strToNat
    rw [if_neg hn, natToStrGo_foldl (n + 1) n 0 (Nat.lt_succ_self n)]
    simp

/-- `yes`/`no` booleans round trip. -/
theorem yesNo_round (b : Bool) : decide (yesNo b = "yes".toList) = b := by
  cases b <;> decide

/-- A separator-free piece passes through the splitter whole. -/
theorem pySplitGo_no_sep : ∀ (e cur : Str), hasSepPair e = false →
    pySplitGo cur e = [cur ++ e] := by
  intro e
  induction e with
  | nil => intro cur _; simp [pySplitGo]
  | cons c e' ih =>
    intro cur h
    rw [hasSepPair, Bool.or_eq_false_iff] at h
    cases e' with
    | nil => simp [pySplitGo]
    | cons c2 e'' =>
      have hcond : ¬(c = ',' ∧ c2 = ' ') := by
        intro hc
        rw [hc.1, hc.2] at h
        simp at h
      rw [pySplitGo, if_neg hcond, ih (cur ++ [c]) h.2]
      simp

/-- The splitter cuts exactly at the first separator. -/
theorem pySplitGo_sep : ∀ (e rest cur : Str), hasSepPair e = false →
    pySplitGo cur (e ++ ',' :: ' ' :: rest) = (cur ++ e) :: pySplitGo [] rest := by
  intro e
  induction e with
  | nil =>
    intro rest cur _
    simp [pySplitGo]
  | cons c e' ih =>
    intro rest cur h
    rw [hasSepPair, Bool.or_eq_false_iff] at h
    cases e' with
    | nil =>
      rw [List.cons_append, List.nil_append]
      rw [pySplitGo, if_neg (by simp)]
      rw [show pySplitGo (cur ++ [c]) (',' :: ' ' :: rest)
          = (cur ++ [c]) :: pySplitGo [] rest from by
        rw [pySplitGo, if_pos ⟨rfl, rfl⟩]]
    | cons c2 e'' =>
      have hcond : ¬(c = ',' ∧ c2 = ' ') := by
        intro hc
        rw [hc.1, hc.2] at h
        simp at h
      simp only [List.cons_append]
      rw [pySplitGo, if_neg hcond]
      rw [show (c2 :: (e'' ++ ',' :: ' ' :: rest)) = (c2 :: e'') ++ ',' :: ' ' :: rest
        from rfl]
      rw [ih rest (cur ++ [c]) h.2]
      simp

/-- `', '.join` followed by `.split(', ')` is the identity on non-empty
lists of separator-free pieces. -/
theorem pyJoin_split : ∀ cs : List Str, cs ≠ [] →
    (∀ c ∈ cs, hasSepPair c = false) → pySplit (pyJoin cs) = cs := by
  intro cs
  induction cs with
  | nil => intro h _; exact absurd rfl h
  | cons x t ih =>
    intro _ hall
    cases t with
    | nil =>
      rw [show pyJoin [x] = x from rfl]
      rw [pySplit, pySplitGo_no_sep x [] (hall x (List.mem_cons_self x []))]
      simp
    | cons y t' =>
      rw [show pyJoin (x :: y :: t') = x ++ ',' :: ' ' :: pyJoin (y :: t') from rfl]
      rw [pySplit, pySplitGo_sep x _ [] (hall x (List.mem_cons_self x (y :: t')))]
      rw [show pySplitGo ([] : Str) (pyJoin (y :: t')) = pySplit (pyJoin (y :: t'))
        from rfl]
      rw [ih (by simp) (fun c hc => hall c (List.mem_cons_of_mem x hc))]
      simp

/-- Claim C7 (corrected): serializing to a CSV row and re-parsing
reproduces the record provided `classes` is non-empty and separator-free,
`material_text` presence mirrors `material`, and a present
`material_cost` entails `material` with a non-empty cost string.  The
claim fails exactly where its side conditions fail — in particular for
an empty `classes` list, which re-parses as `[""]`. -/
theorem c7_amended (sp : Spell) (h1 : sp.classes ≠ [])
    (h2 : ∀ c ∈ sp.classes, hasSepPair c = false)
    (h3 : sp.material_text.isSome = sp.material)
    (h4 : sp.material_cost.isSome = true →
      sp.material = true ∧ sp.material_cost.getD [] ≠ []) :
    fromCsvDict (toCsvDict sp) = sp := by
  obtain ⟨nm, lvl, sch, cls, ct, rg, dur, conc, rit, vb, so, mat, mc, mcons,
    mtext, mcost, rl, src⟩ := sp
  simp only [toCsvDict, fromCsvDict] at *
  simp only [Spell.mk.injEq, strToNat_natToStr, yesNo_round,
    pyJoin_split cls h1 h2, eq_self_iff_true, true_and, and_true]
  constructor
  · cases mtext with
    | none =>
      simp only [Option.isSome_none] at h3
      rw [← h3]
      simp
    | some t =>
      simp only [Option.isSome_some] at h3
      rw [← h3]
      simp
  · cases mcost with
    | none =>
      simp only [Option.getD_none]
      cases mat <;> simp
    | some cst =>
      obtain ⟨hmat, hne⟩ := h4 rfl
      rw [hmat]
      simp only [Option.getD_some]
      simp only [if_pos (show True from trivial), eq_self_iff_true, if_true]
      rw [if_pos (show ¬cst = [] from hne)]

/-- Claim C7 witness: the round trip at a concrete record satisfying the
side conditions. -/
theorem c7_witness :
    sampleRtSpell.classes ≠ [] ∧
    fromCsvDict (toCsvDict sampleRtSpell) = sampleRtSpell :=
  ⟨by decide,
   c7_amended sampleRtSpell (by decide) (by decide) (by decide) (by decide)⟩

/-- Claim C7 counterexample: the round trip is NOT the identity on a
record with an empty `classes` list — `', '.join([]) = \"\"` re-parses
as `[\"\"]`, not `[]`. -/
theorem c7_counterexample :
    fromCsvDict (toCsvDict emptyClassesSpell) ≠ emptyClassesSpell ∧
    (fromCsvDict (toCsvDict emptyClassesSpell)).classes = [[]] := by
  decide

end SCM
